import Mathlib

/-!
# bladerf_common: shared state of the bladeRF source/sink blocks

A shallow embedding of `lib/bladerf/bladerf_common.cc`:

* the constructor, which resolves the capacity of the sample FIFO from the
  environment variable `BLADERF_SAMPLE_FIFO_SIZE`;
* `is_running` / `set_running`, the accessors of the running flag;
* `devices`, which formats the driver's device list.

What the file takes from outside `bladerf_common.cc` is collected in `Deps`:
the two constants of `bladerf_common.h`, `boost::lexical_cast<size_t>` and the
outcome of the `new` expression.  Everything is stated for arbitrary `Deps`.

The model is sequential.  The scoped `boost::shared_lock` / `boost::unique_lock`
guards of the accessors are taken at entry and released at exit of the call, so
they leave no trace in a sequential state and are not represented.
-/

/-! ## Data model -/

/-- The `boost::circular_buffer<gr_complex>` behind `_fifo`: its capacity, fixed
when it is built, and the number of samples it holds.  The sample values are
complex floats, which nothing in this file reads. -/
structure circular_buffer where
  capacity : Nat
  size : Nat
  deriving DecidableEq, Repr

/-- What `boost::circular_buffer<gr_complex>(n)` builds: an empty buffer of
capacity `n`. -/
def circular_buffer.mk_empty (n : Nat) : circular_buffer :=
  { capacity := n, size := 0 }

/-- The data members of `bladerf_common` that the file touches. -/
structure bladerf_common where
  _is_running : Bool
  _fifo : circular_buffer
  deriving DecidableEq, Repr

/-- The three outcomes of `new boost::circular_buffer<gr_complex>(fifo_size)`:
a pointer to the new object, a null pointer, or an exception out of the
expression (`std::bad_alloc`, or `std::length_error` from the buffer). -/
inductive new_result where
  | object
  | null
  | throws
  deriving DecidableEq, Repr

/-- The exceptions that leave the constructor: the `std::runtime_error` of
lines 74-75, or the one that came out of the `new` expression of line 72. -/
inductive ctor_error where
  | runtime_error (what : String)
  | from_new
  deriving DecidableEq, Repr

/-- What `bladerf_common.cc` uses and does not define.

* `BLADERF_SAMPLE_FIFO_SIZE`, `BLADERF_SAMPLE_FIFO_MIN_SIZE`: the constants of
  `bladerf_common.h`, as `size_t` values;
* `lexical_cast`: `boost::lexical_cast<size_t>` on the text of the environment
  variable, `none` standing for `boost::bad_lexical_cast`;
* `operator_new`: the outcome of allocating a FIFO of the given capacity. -/
structure Deps where
  BLADERF_SAMPLE_FIFO_SIZE : Nat
  BLADERF_SAMPLE_FIFO_MIN_SIZE : Nat
  lexical_cast : String → Option Nat
  operator_new : Nat → new_result

/-- The macro `BLADERF_FIFO_SIZE_ENV` (line 42). -/
def BLADERF_FIFO_SIZE_ENV : String := "BLADERF_SAMPLE_FIFO_SIZE"

/-! ## The constructor -/

/-- Lines 59-61: the text written to `std::cerr` when the value is not a
`size_t`. -/
def warning_invalid (fifo_size : Nat) : String :=
  "Warning: \"" ++ BLADERF_FIFO_SIZE_ENV ++ "\" is invalid" ++ "... defaulting to "
    ++ toString fifo_size

/-- Lines 66-68: the text written to `std::cerr` when the value is below the
floor. -/
def warning_too_small (d : Deps) : String :=
  "Warning: \"" ++ BLADERF_FIFO_SIZE_ENV ++ "\" is too small" ++ "... defaulting to "
    ++ toString d.BLADERF_SAMPLE_FIFO_MIN_SIZE

/-- Lines 56-62: the `try` block.  From the current `fifo_size` and the text of
the variable, the new `fifo_size` and what is written to `std::cerr`. -/
def ctor_try (d : Deps) (fifo_size : Nat) (env_fifo_size : String) : Nat × List String :=
  match d.lexical_cast env_fifo_size with
  | some v => (v, [])
  | none => (fifo_size, [warning_invalid fifo_size])

/-- Lines 64-69: the floor.  From the current `fifo_size`, the new `fifo_size`
and what is written to `std::cerr`. -/
def ctor_floor (d : Deps) (fifo_size : Nat) : Nat × List String :=
  if fifo_size < d.BLADERF_SAMPLE_FIFO_MIN_SIZE then
    (d.BLADERF_SAMPLE_FIFO_MIN_SIZE, [warning_too_small d])
  else
    (fifo_size, [])

/-- Lines 49-70: the value of `fifo_size` when line 72 is reached, and the
warnings written to `std::cerr` on the way, in order.  `env_fifo_size` is the
result of `getenv`, `none` for `NULL`. -/
def ctor_fifo_size (d : Deps) (env_fifo_size : Option String) : Nat × List String :=
  let fifo_size := d.BLADERF_SAMPLE_FIFO_SIZE
  match env_fifo_size with
  | none => (fifo_size, [])
  | some text =>
    let r1 := ctor_try d fifo_size text
    let r2 := ctor_floor d r1.1
    (r2.1, r1.2 ++ r2.2)

/-- The message of the `std::runtime_error` of lines 74-75; `__FUNCTION__` is
the constructor's name. -/
def alloc_failure_what : String :=
  "bladerf_common" ++ " has failed to allocate a sample FIFO!"

/-- Lines 46-76, `bladerf_common::bladerf_common()`: the object built, or the
exception thrown, together with what was written to `std::cerr`. -/
def bladerf_common.ctor (d : Deps) (env_fifo_size : Option String) :
    Except ctor_error bladerf_common × List String :=
  let r := ctor_fifo_size d env_fifo_size
  match d.operator_new r.1 with
  | new_result.object =>
    (Except.ok { _is_running := false, _fifo := circular_buffer.mk_empty r.1 }, r.2)
  | new_result.null => (Except.error (ctor_error.runtime_error alloc_failure_what), r.2)
  | new_result.throws => (Except.error ctor_error.from_new, r.2)

/-! ## The running flag -/

/-- Lines 149-154, `bladerf_common::is_running()`: the value returned and the
object after the call. -/
def bladerf_common.is_running (self : bladerf_common) : Bool × bladerf_common :=
  (self._is_running, self)

/-- Lines 156-161, `bladerf_common::set_running(bool)`: the object after the
call. -/
def bladerf_common.set_running (self : bladerf_common) (is_running : Bool) : bladerf_common :=
  { self with _is_running := is_running }

/-- A call of one of the two accessors. -/
inductive accessor_call where
  | set_running (is_running : Bool)
  | is_running
  deriving DecidableEq, Repr

/-- The object after one accessor call. -/
def bladerf_common.step (self : bladerf_common) : accessor_call → bladerf_common
  | accessor_call.set_running b => self.set_running b
  | accessor_call.is_running => self.is_running.2

/-- The object after a sequence of accessor calls, first call first. -/
def bladerf_common.run (self : bladerf_common) (calls : List accessor_call) : bladerf_common :=
  calls.foldl bladerf_common.step self

/-! ## Device listing -/

/-- The two fields of libbladeRF's `struct bladerf_devinfo` that `devices()`
reads: the serial number, a C string, and the instance, an `unsigned int`. -/
structure bladerf_devinfo where
  serial : String
  instance_ : Nat
  deriving DecidableEq, Repr

/-- Lines 129-140: the body of the loop for one device, the `std::stringstream`
`s` being the string written so far. -/
def devices_entry (dev : bladerf_devinfo) : String :=
  let s := ""
  let serial := dev.serial
  let s := s ++ "bladerf=" ++ toString dev.instance_ ++ "," ++ "label='nuand bladeRF"
  let s := if serial.length ≠ 0 then s ++ " SN " ++ serial else s
  let s := s ++ "'"
  s

/-- Lines 127-141: the `for` loop, with `remaining = n_devices - i` iterations
left to run. -/
def devices_loop (devices : Nat → bladerf_devinfo) :
    (remaining : Nat) → (i : Nat) → (ret : List String) → List String
  | 0, _, ret => ret
  | remaining + 1, i, ret =>
    devices_loop devices remaining (i + 1) (ret ++ [devices_entry (devices i)])

/-- Lines 117-147, `bladerf_common::devices()`.  `n_devices` and `devices` are
what `bladerf_get_device_list` hands back: the count (negative for a driver
error) and the array, read as `devices[i]`. -/
def bladerf_common.devices (n_devices : Int) (devices : Nat → bladerf_devinfo) : List String :=
  let ret : List String := []
  if n_devices > 0 then
    devices_loop devices n_devices.toNat 0 ret
  else
    ret

/-! ## A concrete instantiation, for evaluating the model -/

/-- The value of a decimal digit. -/
def digit_value (c : Char) : Option Nat :=
  if '0' ≤ c ∧ c ≤ '9' then some (c.toNat - '0'.toNat) else none

/-- Reads a run of decimal digits, most significant first. -/
def parse_digits : List Char → Nat → Option Nat
  | [], acc => some acc
  | c :: cs, acc =>
    match digit_value c with
    | none => none
    | some v => parse_digits cs (acc * 10 + v)

/-- A reader of unsigned decimal numerals that fit 64 bits: a non-empty run of
digits and nothing else. -/
def decimal_size_t (text : String) : Option Nat :=
  match text.data with
  | [] => none
  | cs =>
    match parse_digits cs 0 with
    | none => none
    | some v => if v < 2 ^ 64 then some v else none

/-- An instantiation of `Deps`: a default of 2097152 samples, a floor of 3072,
the decimal reader above, and an allocator that serves up to 2^32 samples. -/
def sample_deps : Deps where
  BLADERF_SAMPLE_FIFO_SIZE := 2 * 1024 * 1024
  BLADERF_SAMPLE_FIFO_MIN_SIZE := 3 * 1024
  lexical_cast := decimal_size_t
  operator_new := fun n => if n ≤ 2 ^ 32 then new_result.object else new_result.throws

/-- A driver array holding one device of instance 0 and empty serial in every
slot. -/
def one_blank_device : Nat → bladerf_devinfo :=
  fun _ => { serial := "", instance_ := 0 }

/-- A driver array of two devices: instance 0 without serial, instance 1 with
serial `f00d`. -/
def two_devices : Nat → bladerf_devinfo
  | 0 => { serial := "", instance_ := 0 }
  | _ => { serial := "f00d", instance_ := 1 }

/-- Whether `a` stands right before `b` somewhere in the text. -/
def adjacent (a b : Char) : List Char → Bool
  | x :: y :: rest => (x == a && y == b) || adjacent a b (y :: rest)
  | _ => false

/-! ## Lemmas on the constructor -/

theorem ctor_fifo_size_none (d : Deps) :
    ctor_fifo_size d none = (d.BLADERF_SAMPLE_FIFO_SIZE, []) := rfl

theorem ctor_fifo_size_parsed (d : Deps) (text : String) (v : Nat)
    (hparse : d.lexical_cast text = some v) :
    ctor_fifo_size d (some text) = ctor_floor d v := by
  simp [ctor_fifo_size, ctor_try, hparse]

theorem ctor_fifo_size_unparsed (d : Deps) (text : String)
    (hparse : d.lexical_cast text = none) :
    ctor_fifo_size d (some text)
      = ((ctor_floor d d.BLADERF_SAMPLE_FIFO_SIZE).1,
          warning_invalid d.BLADERF_SAMPLE_FIFO_SIZE
            :: (ctor_floor d d.BLADERF_SAMPLE_FIFO_SIZE).2) := by
  simp [ctor_fifo_size, ctor_try, hparse]

theorem ctor_floor_of_ge (d : Deps) (n : Nat) (h : d.BLADERF_SAMPLE_FIFO_MIN_SIZE ≤ n) :
    ctor_floor d n = (n, []) := by
  simp [ctor_floor, Nat.not_lt.mpr h]

theorem ctor_floor_of_lt (d : Deps) (n : Nat) (h : n < d.BLADERF_SAMPLE_FIFO_MIN_SIZE) :
    ctor_floor d n = (d.BLADERF_SAMPLE_FIFO_MIN_SIZE, [warning_too_small d]) := by
  simp [ctor_floor, h]

theorem ctor_floor_ge (d : Deps) (n : Nat) :
    d.BLADERF_SAMPLE_FIFO_MIN_SIZE ≤ (ctor_floor d n).1 := by
  unfold ctor_floor
  split
  · exact Nat.le_refl _
  · exact Nat.le_of_not_lt (by assumption)

theorem ctor_of_object (d : Deps) (env_fifo_size : Option String)
    (hnew : d.operator_new (ctor_fifo_size d env_fifo_size).1 = new_result.object) :
    bladerf_common.ctor d env_fifo_size
      = (Except.ok { _is_running := false,
                     _fifo := { capacity := (ctor_fifo_size d env_fifo_size).1, size := 0 } },
          (ctor_fifo_size d env_fifo_size).2) := by
  simp [bladerf_common.ctor, hnew, circular_buffer.mk_empty]

/-- The floor holds for the value of `fifo_size` at line 72 whenever the
variable is set; when it is missing, as soon as the default is not below the
floor. -/
theorem ctor_fifo_size_ge (d : Deps) (env_fifo_size : Option String)
    (hfloor : env_fifo_size = none →
      d.BLADERF_SAMPLE_FIFO_MIN_SIZE ≤ d.BLADERF_SAMPLE_FIFO_SIZE) :
    d.BLADERF_SAMPLE_FIFO_MIN_SIZE ≤ (ctor_fifo_size d env_fifo_size).1 := by
  cases env_fifo_size with
  | none => simpa [ctor_fifo_size_none] using hfloor rfl
  | some text =>
    cases hparse : d.lexical_cast text with
    | none =>
      rw [ctor_fifo_size_unparsed d text hparse]
      exact ctor_floor_ge d _
    | some v =>
      rw [ctor_fifo_size_parsed d text v hparse]
      exact ctor_floor_ge d v

/-! ## Lemmas on the accessors -/

theorem step_fifo (self : bladerf_common) (c : accessor_call) :
    (self.step c)._fifo = self._fifo := by
  cases c <;> rfl

theorem run_fifo (calls : List accessor_call) (self : bladerf_common) :
    (self.run calls)._fifo = self._fifo := by
  induction calls generalizing self with
  | nil => rfl
  | cons c cs ih =>
    have h := ih (self.step c)
    simp only [bladerf_common.run, List.foldl_cons] at h ⊢
    rw [h, step_fifo]

/-! ## The constructor: capacity of the FIFO -/

/-- C1: when the text of the environment variable reads as a `size_t` value `v`
that is not below `BLADERF_SAMPLE_FIFO_MIN_SIZE` (and the allocation yields an
object), the constructor builds a stopped object whose FIFO has capacity exactly
`v`, and writes nothing to `std::cerr`. -/
theorem ctor_capacity_of_value_ge_floor (d : Deps) (text : String) (v : Nat)
    (hparse : d.lexical_cast text = some v)
    (hge : d.BLADERF_SAMPLE_FIFO_MIN_SIZE ≤ v)
    (hnew : d.operator_new v = new_result.object) :
    bladerf_common.ctor d (some text)
      = (Except.ok { _is_running := false, _fifo := { capacity := v, size := 0 } }, []) := by
  have hsize : ctor_fifo_size d (some text) = (v, []) := by
    rw [ctor_fifo_size_parsed d text v hparse, ctor_floor_of_ge d v hge]
  have hobj := ctor_of_object d (some text) (by rw [hsize]; exact hnew)
  rw [hobj, hsize]

theorem ctor_capacity_of_value_ge_floor_witness :
    sample_deps.lexical_cast "4096" = some 4096
      ∧ sample_deps.BLADERF_SAMPLE_FIFO_MIN_SIZE ≤ 4096
      ∧ bladerf_common.ctor sample_deps (some "4096")
          = (Except.ok { _is_running := false, _fifo := { capacity := 4096, size := 0 } }, []) :=
  ⟨by decide, by decide,
    ctor_capacity_of_value_ge_floor sample_deps "4096" 4096 (by decide) (by decide) (by decide)⟩

/-- C2: when the text of the environment variable reads as a `size_t` value `v`
below `BLADERF_SAMPLE_FIFO_MIN_SIZE`, zero included (and the allocation yields
an object), the constructor builds a stopped object whose FIFO has capacity
exactly `BLADERF_SAMPLE_FIFO_MIN_SIZE`, and writes the "too small" warning. -/
theorem ctor_capacity_of_value_lt_floor (d : Deps) (text : String) (v : Nat)
    (hparse : d.lexical_cast text = some v)
    (hlt : v < d.BLADERF_SAMPLE_FIFO_MIN_SIZE)
    (hnew : d.operator_new d.BLADERF_SAMPLE_FIFO_MIN_SIZE = new_result.object) :
    bladerf_common.ctor d (some text)
      = (Except.ok { _is_running := false,
                     _fifo := { capacity := d.BLADERF_SAMPLE_FIFO_MIN_SIZE, size := 0 } },
          [warning_too_small d]) := by
  have hsize : ctor_fifo_size d (some text)
      = (d.BLADERF_SAMPLE_FIFO_MIN_SIZE, [warning_too_small d]) := by
    rw [ctor_fifo_size_parsed d text v hparse, ctor_floor_of_lt d v hlt]
  have hobj := ctor_of_object d (some text) (by rw [hsize]; exact hnew)
  rw [hobj, hsize]

theorem ctor_capacity_of_value_lt_floor_witness :
    sample_deps.lexical_cast "0" = some 0
      ∧ 0 < sample_deps.BLADERF_SAMPLE_FIFO_MIN_SIZE
      ∧ bladerf_common.ctor sample_deps (some "0")
          = (Except.ok { _is_running := false,
                         _fifo := { capacity := sample_deps.BLADERF_SAMPLE_FIFO_MIN_SIZE,
                                    size := 0 } },
              [warning_too_small sample_deps]) :=
  ⟨by decide, by decide,
    ctor_capacity_of_value_lt_floor sample_deps "0" 0 (by decide) (by decide) (by decide)⟩

/-- C3: when the allocation of the default capacity yields an object, the
constructor builds a FIFO of capacity exactly `BLADERF_SAMPLE_FIFO_SIZE` when
the environment variable is missing, in which case nothing is written to
`std::cerr`; and, the default of `bladerf_common.h` being not below its floor,
also for every text that does not read as a `size_t`, in which case the
"invalid" warning is written. -/
theorem ctor_capacity_default (d : Deps)
    (hnew : d.operator_new d.BLADERF_SAMPLE_FIFO_SIZE = new_result.object) :
    bladerf_common.ctor d none
        = (Except.ok { _is_running := false,
                       _fifo := { capacity := d.BLADERF_SAMPLE_FIFO_SIZE, size := 0 } }, [])
      ∧ (d.BLADERF_SAMPLE_FIFO_MIN_SIZE ≤ d.BLADERF_SAMPLE_FIFO_SIZE →
          ∀ text : String, d.lexical_cast text = none →
            bladerf_common.ctor d (some text)
              = (Except.ok { _is_running := false,
                             _fifo := { capacity := d.BLADERF_SAMPLE_FIFO_SIZE, size := 0 } },
                  [warning_invalid d.BLADERF_SAMPLE_FIFO_SIZE])) := by
  constructor
  · have hobj := ctor_of_object d none (by rw [ctor_fifo_size_none]; exact hnew)
    rw [hobj, ctor_fifo_size_none]
  · intro hfloor text hparse
    have hsize : ctor_fifo_size d (some text)
        = (d.BLADERF_SAMPLE_FIFO_SIZE, [warning_invalid d.BLADERF_SAMPLE_FIFO_SIZE]) := by
      rw [ctor_fifo_size_unparsed d text hparse, ctor_floor_of_ge d _ hfloor]
    have hobj := ctor_of_object d (some text) (by rw [hsize]; exact hnew)
    rw [hobj, hsize]

theorem ctor_capacity_default_witness :
    sample_deps.lexical_cast "lots" = none
      ∧ bladerf_common.ctor sample_deps none
          = (Except.ok { _is_running := false,
                         _fifo := { capacity := sample_deps.BLADERF_SAMPLE_FIFO_SIZE,
                                    size := 0 } }, [])
      ∧ bladerf_common.ctor sample_deps (some "lots")
          = (Except.ok { _is_running := false,
                         _fifo := { capacity := sample_deps.BLADERF_SAMPLE_FIFO_SIZE,
                                    size := 0 } },
              [warning_invalid sample_deps.BLADERF_SAMPLE_FIFO_SIZE]) :=
  ⟨by decide,
    (ctor_capacity_default sample_deps (by decide)).1,
    (ctor_capacity_default sample_deps (by decide)).2 (by decide) "lots" (by decide)⟩

/-- C4: for every environment input (missing, unreadable, or any value read)
the constructor, when its allocation yields an object, builds an object whose
FIFO capacity is at least `BLADERF_SAMPLE_FIFO_MIN_SIZE`, and the capacity is
the same, hence still at least the floor, after any sequence of `set_running` /
`is_running` calls.  With the variable set this holds for any constants; with
the variable missing the default is allocated as it is, and the default of
`bladerf_common.h` is then taken to be not below its floor. -/
theorem fifo_capacity_ge_floor (d : Deps) (env_fifo_size : Option String)
    (hfloor : env_fifo_size = none →
      d.BLADERF_SAMPLE_FIFO_MIN_SIZE ≤ d.BLADERF_SAMPLE_FIFO_SIZE)
    (hnew : d.operator_new (ctor_fifo_size d env_fifo_size).1 = new_result.object) :
    ∃ self : bladerf_common,
      (bladerf_common.ctor d env_fifo_size).1 = Except.ok self
        ∧ d.BLADERF_SAMPLE_FIFO_MIN_SIZE ≤ self._fifo.capacity
        ∧ ∀ calls : List accessor_call,
            (self.run calls)._fifo.capacity = self._fifo.capacity
              ∧ d.BLADERF_SAMPLE_FIFO_MIN_SIZE ≤ (self.run calls)._fifo.capacity := by
  refine ⟨_, by rw [ctor_of_object d env_fifo_size hnew], ?_, ?_⟩
  · exact ctor_fifo_size_ge d env_fifo_size hfloor
  · intro calls
    rw [run_fifo]
    exact ⟨rfl, ctor_fifo_size_ge d env_fifo_size hfloor⟩

theorem fifo_capacity_ge_floor_witness :
    (∃ self : bladerf_common,
      (bladerf_common.ctor sample_deps none).1 = Except.ok self
        ∧ sample_deps.BLADERF_SAMPLE_FIFO_MIN_SIZE ≤ self._fifo.capacity
        ∧ ∀ calls : List accessor_call,
            (self.run calls)._fifo.capacity = self._fifo.capacity
              ∧ sample_deps.BLADERF_SAMPLE_FIFO_MIN_SIZE ≤ (self.run calls)._fifo.capacity)
      ∧ ∃ self : bladerf_common,
        (bladerf_common.ctor sample_deps (some "17")).1 = Except.ok self
          ∧ sample_deps.BLADERF_SAMPLE_FIFO_MIN_SIZE ≤ self._fifo.capacity
          ∧ ∀ calls : List accessor_call,
              (self.run calls)._fifo.capacity = self._fifo.capacity
                ∧ sample_deps.BLADERF_SAMPLE_FIFO_MIN_SIZE ≤ (self.run calls)._fifo.capacity :=
  ⟨fifo_capacity_ge_floor sample_deps none (fun _ => by decide) (by decide),
    fifo_capacity_ge_floor sample_deps (some "17") (fun h => by cases h) (by decide)⟩

/-! ## The constructor: warnings -/

/-- C5, as the claim states it, fails when the variable is missing: the
constructor builds the object with the default capacity and the list of
warnings written to `std::cerr` is empty. -/
theorem ctor_missing_env_writes_nothing :
    (bladerf_common.ctor sample_deps none).1
        = Except.ok { _is_running := false, _fifo := { capacity := 2097152, size := 0 } }
      ∧ ¬ ((bladerf_common.ctor sample_deps none).2 ≠ []) := by
  constructor
  · rfl
  · intro h
    exact h rfl

/-- C5, amended: when the allocation of the default capacity yields an object,
for every text that does not read as a `size_t` (the default of
`bladerf_common.h` being not below its floor) the constructor does not throw,
builds a FIFO of the default capacity and writes a warning to `std::cerr` (the
list of warnings is not empty, its first entry being the "invalid" warning);
when the variable is missing the constructor does not throw either, builds a
FIFO of the default capacity, and writes nothing. -/
theorem ctor_warning_on_invalid_only (d : Deps)
    (hnew : d.operator_new d.BLADERF_SAMPLE_FIFO_SIZE = new_result.object) :
    (d.BLADERF_SAMPLE_FIFO_MIN_SIZE ≤ d.BLADERF_SAMPLE_FIFO_SIZE →
        ∀ text : String, d.lexical_cast text = none →
          ∃ self : bladerf_common,
            (bladerf_common.ctor d (some text)).1 = Except.ok self
              ∧ self._fifo.capacity = d.BLADERF_SAMPLE_FIFO_SIZE
              ∧ (bladerf_common.ctor d (some text)).2 ≠ []
              ∧ (bladerf_common.ctor d (some text)).2.head?
                  = some (warning_invalid d.BLADERF_SAMPLE_FIFO_SIZE))
      ∧ ∃ self : bladerf_common,
          (bladerf_common.ctor d none).1 = Except.ok self
            ∧ self._fifo.capacity = d.BLADERF_SAMPLE_FIFO_SIZE
            ∧ (bladerf_common.ctor d none).2 = [] := by
  constructor
  · intro hfloor text hparse
    have hsize : ctor_fifo_size d (some text)
        = (d.BLADERF_SAMPLE_FIFO_SIZE, [warning_invalid d.BLADERF_SAMPLE_FIFO_SIZE]) := by
      rw [ctor_fifo_size_unparsed d text hparse, ctor_floor_of_ge d _ hfloor]
    have hobj := ctor_of_object d (some text) (by rw [hsize]; exact hnew)
    rw [hobj, hsize]
    exact ⟨_, rfl, rfl, by simp, rfl⟩
  · have hobj := ctor_of_object d none (by rw [ctor_fifo_size_none]; exact hnew)
    rw [hobj, ctor_fifo_size_none]
    exact ⟨_, rfl, rfl, rfl⟩

theorem ctor_warning_on_invalid_only_witness :
    sample_deps.lexical_cast "12k" = none
      ∧ (∃ self : bladerf_common,
          (bladerf_common.ctor sample_deps (some "12k")).1 = Except.ok self
            ∧ self._fifo.capacity = sample_deps.BLADERF_SAMPLE_FIFO_SIZE
            ∧ (bladerf_common.ctor sample_deps (some "12k")).2 ≠ []
            ∧ (bladerf_common.ctor sample_deps (some "12k")).2.head?
                = some (warning_invalid sample_deps.BLADERF_SAMPLE_FIFO_SIZE))
      ∧ ∃ self : bladerf_common,
          (bladerf_common.ctor sample_deps none).1 = Except.ok self
            ∧ self._fifo.capacity = sample_deps.BLADERF_SAMPLE_FIFO_SIZE
            ∧ (bladerf_common.ctor sample_deps none).2 = [] :=
  ⟨by decide,
    (ctor_warning_on_invalid_only sample_deps (by decide)).1 (by decide) "12k" (by decide),
    (ctor_warning_on_invalid_only sample_deps (by decide)).2⟩

/-! ## The running flag -/

/-- C6: for every environment input, the object the constructor builds (when its
allocation yields an object) is stopped: `is_running()` called on it before any
`set_running` returns `false`. -/
theorem is_running_after_ctor (d : Deps) (env_fifo_size : Option String)
    (hnew : d.operator_new (ctor_fifo_size d env_fifo_size).1 = new_result.object) :
    ∃ self : bladerf_common,
      (bladerf_common.ctor d env_fifo_size).1 = Except.ok self
        ∧ self.is_running.1 = false := by
  rw [ctor_of_object d env_fifo_size hnew]
  exact ⟨_, rfl, rfl⟩

theorem is_running_after_ctor_witness :
    ∃ self : bladerf_common,
      (bladerf_common.ctor sample_deps (some "65536")).1 = Except.ok self
        ∧ self.is_running.1 = false :=
  is_running_after_ctor sample_deps (some "65536") (by decide)

/-- C7: `is_running()` called after `set_running(b)` returns `b`, whatever the
object and its flag were before; hence after any sequence of `set_running` calls
ending with `set_running(b)` it returns `b`; and `is_running()` leaves the
object as it was. -/
theorem is_running_after_set_running (self : bladerf_common) (b : Bool) :
    (self.set_running b).is_running.1 = b
      ∧ (∀ earlier : List Bool,
          ((earlier ++ [b]).foldl bladerf_common.set_running self).is_running.1 = b)
      ∧ self.is_running.2 = self := by
  refine ⟨rfl, ?_, rfl⟩
  intro earlier
  rw [List.foldl_append]
  rfl

/-! ## Lemmas on texts -/

theorem string_length_ne_zero (s : String) : s.length ≠ 0 ↔ s ≠ "" := by
  rw [Ne, Ne, String.length, List.length_eq_zero]
  constructor
  · intro h e; exact h (by rw [e])
  · intro h e; exact h (String.ext e)

theorem adjacent_cons (a b x : Char) (l : List Char) (h : adjacent a b l = true) :
    adjacent a b (x :: l) = true := by
  cases l with
  | nil => simp [adjacent] at h
  | cons y rest => simp [adjacent, h]

theorem adjacent_of_infix (a b : Char) (t l : List Char) (h : (a :: b :: t) <:+: l) :
    adjacent a b l = true := by
  obtain ⟨p, q, rfl⟩ := h
  induction p with
  | nil => simp [adjacent]
  | cons x p ih => exact adjacent_cons a b x _ ih

theorem adjacent_append_of_not_mem (a b : Char) (xs ys : List Char) (h : a ∉ xs) :
    adjacent a b (xs ++ ys) = adjacent a b ys := by
  induction xs with
  | nil => rfl
  | cons x xs ih =>
    have hx : x ≠ a := fun e => h (by simp [e])
    have hxs : a ∉ xs := fun e => h (by simp [e])
    rw [← ih hxs]
    show adjacent a b (x :: (xs ++ ys)) = adjacent a b (xs ++ ys)
    generalize xs ++ ys = l
    cases l with
    | nil => simp [adjacent]
    | cons y rest => simp [adjacent, hx]

theorem ite_ne_of (p : Prop) [Decidable p] (x y z : Char) (hx : x ≠ z) (hy : y ≠ z) :
    (if p then x else y) ≠ z := by
  split <;> assumption

theorem digitChar_ne_space (n : Nat) : Nat.digitChar n ≠ ' ' := by
  unfold Nat.digitChar
  repeat' apply ite_ne_of
  all_goals decide

theorem toDigitsCore_no_space (b fuel n : Nat) (ds : List Char) (h : ' ' ∉ ds) :
    ' ' ∉ Nat.toDigitsCore b fuel n ds := by
  induction fuel generalizing n ds with
  | zero => simpa [Nat.toDigitsCore] using h
  | succ f ih =>
    have hd : ' ' ∉ Nat.digitChar (n % b) :: ds := by
      intro hmem
      rcases List.mem_cons.mp hmem with e | e
      · exact digitChar_ne_space _ e.symm
      · exact h e
    unfold Nat.toDigitsCore
    dsimp only
    split
    · exact hd
    · exact ih _ _ hd

/-- The decimal text of a number holds no blank. -/
theorem toString_no_space (n : Nat) : ' ' ∉ (toString n).data := by
  show ' ' ∉ (Nat.repr n).data
  unfold Nat.repr Nat.toDigits
  exact toDigitsCore_no_space 10 _ n [] (by simp)

/-! ## Lemmas on the device listing -/

theorem devices_entry_eq (dev : bladerf_devinfo) :
    devices_entry dev
      = "bladerf=" ++ toString dev.instance_ ++ ",label='nuand bladeRF"
          ++ (if dev.serial ≠ "" then " SN " ++ dev.serial else "") ++ "'" := by
  unfold devices_entry
  by_cases h : dev.serial = ""
  · have h0 : dev.serial.length = 0 := by rw [h]; rfl
    simp only [h0, h, ne_eq, not_true_eq_false, if_false]
    apply String.ext
    simp [String.data_append]
  · have h0 : dev.serial.length ≠ 0 := (string_length_ne_zero _).mpr h
    simp only [h0, h, ne_eq, not_false_eq_true, if_true]
    apply String.ext
    simp [String.data_append]

theorem devices_loop_eq (devices : Nat → bladerf_devinfo) (remaining i : Nat)
    (ret : List String) :
    devices_loop devices remaining i ret
      = ret ++ (List.range remaining).map (fun j => devices_entry (devices (i + j))) := by
  induction remaining generalizing i ret with
  | zero => simp [devices_loop]
  | succ k ih =>
    rw [devices_loop, ih, List.range_succ_eq_map]
    simp [List.map_map, Function.comp_def, Nat.add_assoc, Nat.add_comm 1]

theorem devices_eq_map (n_devices : Int) (devices : Nat → bladerf_devinfo) :
    bladerf_common.devices n_devices devices
      = (List.range n_devices.toNat).map (fun i => devices_entry (devices i)) := by
  unfold bladerf_common.devices
  by_cases h : n_devices > 0
  · simp [h, devices_loop_eq]
  · have h0 : n_devices.toNat = 0 := Int.toNat_eq_zero.mpr (by omega)
    simp [h, h0]

/-! ## The device listing -/

/-- C8: when the driver reports a count that is zero or negative, `devices()`
returns the empty sequence; when it reports `n_devices > 0`, the result has
exactly `n_devices` strings and the one at index `i` is the string built from
`devices[i]`, in the driver's order.  `devices()` has no throwing path.  In
particular a single device of instance 0 and empty serial gives exactly one
string. -/
theorem devices_count_and_order (n_devices : Int) (devices : Nat → bladerf_devinfo) :
    (n_devices ≤ 0 → bladerf_common.devices n_devices devices = [])
      ∧ (0 < n_devices →
          ((bladerf_common.devices n_devices devices).length : Int) = n_devices
            ∧ ∀ i : Nat, (i : Int) < n_devices →
                (bladerf_common.devices n_devices devices)[i]?
                  = some (devices_entry (devices i)))
      ∧ (devices 0 = { serial := "", instance_ := 0 } →
          bladerf_common.devices 1 devices
            = [devices_entry { serial := "", instance_ := 0 }]) := by
  refine ⟨?_, ?_, ?_⟩
  · intro h
    have h0 : n_devices.toNat = 0 := Int.toNat_eq_zero.mpr h
    simp [devices_eq_map, h0]
  · intro h
    rw [devices_eq_map]
    constructor
    · simp only [List.length_map, List.length_range]
      exact Int.toNat_of_nonneg (Int.le_of_lt h)
    · intro i hi
      have hi' : i < n_devices.toNat := by omega
      simp [hi']
  · intro h
    rw [devices_eq_map]
    show List.map (fun i => devices_entry (devices i)) (List.range 1) = _
    rw [List.range_succ_eq_map]
    simp [h]

theorem devices_count_and_order_witness :
    bladerf_common.devices 0 two_devices = []
      ∧ bladerf_common.devices (-5) two_devices = []
      ∧ ((bladerf_common.devices 2 two_devices).length : Int) = 2
      ∧ (bladerf_common.devices 2 two_devices)[1]? = some (devices_entry (two_devices 1))
      ∧ bladerf_common.devices 1 one_blank_device
          = [devices_entry { serial := "", instance_ := 0 }] :=
  ⟨(devices_count_and_order 0 two_devices).1 (by decide),
    (devices_count_and_order (-5) two_devices).1 (by decide),
    ((devices_count_and_order 2 two_devices).2.1 (by decide)).1,
    ((devices_count_and_order 2 two_devices).2.1 (by decide)).2 1 (by decide),
    (devices_count_and_order 1 one_blank_device).2.2 rfl⟩

/-- C9: the string built for a device of instance `i` and serial `s` is
`bladerf=` followed by the decimal text of `i`, `,label='nuand bladeRF`, then
` SN ` and `s` when `s` is not empty (nothing otherwise), then a closing quote.
The text ` SN ` occurs in the string exactly when the serial is not empty.  A
device of instance 0 and empty serial gives `bladerf=0,label='nuand bladeRF'`. -/
theorem devices_entry_format (dev : bladerf_devinfo) :
    devices_entry dev
        = "bladerf=" ++ toString dev.instance_ ++ ",label='nuand bladeRF"
            ++ (if dev.serial ≠ "" then " SN " ++ dev.serial else "") ++ "'"
      ∧ (" SN ".data <:+: (devices_entry dev).data ↔ dev.serial ≠ "")
      ∧ devices_entry { serial := "", instance_ := 0 } = "bladerf=0,label='nuand bladeRF'" := by
  refine ⟨devices_entry_eq dev, ?_, by decide⟩
  rw [devices_entry_eq]
  constructor
  · intro hin hempty
    have hadj := adjacent_of_infix ' ' 'S' _ _ hin
    have hdata : ("bladerf=" ++ toString dev.instance_ ++ ",label='nuand bladeRF"
        ++ (if dev.serial ≠ "" then " SN " ++ dev.serial else "") ++ "'").data
        = ("bladerf=".data ++ (toString dev.instance_).data)
            ++ ",label='nuand bladeRF'".data := by
      simp [hempty, String.data_append]
    have hpre : ' ' ∉ "bladerf=".data ++ (toString dev.instance_).data := by
      intro hmem
      rcases List.mem_append.mp hmem with e | e
      · exact absurd e (by decide)
      · exact toString_no_space _ e
    rw [hdata, adjacent_append_of_not_mem ' ' 'S' _ _ hpre] at hadj
    exact absurd hadj (by decide)
  · intro hne
    refine ⟨("bladerf=" ++ toString dev.instance_ ++ ",label='nuand bladeRF").data,
      (dev.serial ++ "'").data, ?_⟩
    simp [hne, String.data_append]
